import Mathlib

/-!
# DarkRadiant: a verification development

A shallow embedding of parts of the DarkRadiant sources and properties proved about them:

* `plugins/mapdoom3/compiler/ProcFile.h` (the compiled-map container),
* `plugins/particles/RenderableParticleStage.h` (particle bunch scheduling),
* `radiant/map/algorithm/MapExporter.cpp` (the exporting scene walker),
* `plugins/dm.objectives/ObjectiveConditionsDialog.cpp` (objective conditions dialog),
* `radiant/ui/modelselector/ModelSelector.cpp` (the model chooser),
* `plugins/eclassmgr/Doom3EntityClass.h` (the key comparison of the entity attribute map).

All definitions come first, the theorems follow.
-/

namespace DarkRadiant

/-! ## Definitions -/

/-! ### ProcFile.h -/

/-- The constant of `#define MAX_GROUP_LIGHTS 16`. -/
def MAX_GROUP_LIGHTS : Nat := 16

/-- A `ProcLight`: the class lives in `ProcLight.h`; a light is identified here by its position
in the light table `ProcFile::lights`. -/
structure ProcLight where
  lightIndex : Nat
  deriving DecidableEq, Repr

/-- The struct `ProcOptimizeGroup`, restricted to its discrete members. `groupLights` holds the
occupied slots of the fixed array `ProcLight groupLights[MAX_GROUP_LIGHTS]`, in slot order;
`numGroupLights` is the C `int` counter next to it. -/
structure ProcOptimizeGroup where
  smoothed : Bool
  planeNum : Nat
  areaNum : Nat
  numGroupLights : Int
  groupLights : List ProcLight
  surfaceEmitted : Bool
  deriving DecidableEq, Repr

/-- Modelled from the spec: the creation of an OptimizeGroup, which is not part of the sources at
hand (only the struct declaration is). A group is identified by its composite key and starts with
an empty list of affecting lights. -/
def newOptimizeGroup (planeNum areaNum : Nat) (smoothed : Bool) : ProcOptimizeGroup :=
  { smoothed := smoothed, planeNum := planeNum, areaNum := areaNum,
    numGroupLights := 0, groupLights := [], surfaceEmitted := false }

/-- Modelled from the spec: one step of the Light Visibility Culler (section 4.6), which is not
part of the sources at hand. The affecting-light list is "capped at 16 entries"; the deterministic
policy chosen for a light beyond the cap is the spec's "first-N-in-registration-order": the light
is left out. -/
def addGroupLight (g : ProcOptimizeGroup) (l : ProcLight) : ProcOptimizeGroup :=
  if g.numGroupLights < (MAX_GROUP_LIGHTS : Int) then
    { g with numGroupLights := g.numGroupLights + 1, groupLights := g.groupLights ++ [l] }
  else
    g

/-- Modelled from the spec: the Light Visibility Culler of section 4.6, which is not part of the
sources at hand: "for every OptimizeGroup, test its bounds against every Light's influence
volume" (the test is the parameter `affects`) and maintain the capped list. -/
def cullGroupLights (affects : ProcLight → ProcOptimizeGroup → Bool) :
    List ProcLight → ProcOptimizeGroup → ProcOptimizeGroup
  | [], g => g
  | l :: ls, g => cullGroupLights affects ls (if affects l g then addGroupLight g l else g)

/-- Modelled from the spec: the ProcOptimizeGroups that the operations of the compiler produce,
as far as their light lists go: a group is created, and the light culler may run over it. -/
inductive Produced : ProcOptimizeGroup → Prop
  | created (planeNum areaNum : Nat) (smoothed : Bool) :
      Produced (newOptimizeGroup planeNum areaNum smoothed)
  | culled (affects : ProcLight → ProcOptimizeGroup → Bool) (lights : List ProcLight)
      (g : ProcOptimizeGroup) : Produced g → Produced (cullGroupLights affects lights g)

/-- The class `LeakFile` is only forward-declared in `ProcFile.h`; following the data model it is
an ordered sequence of points. -/
structure LeakFile where
  points : List (Int × Int × Int)
  deriving DecidableEq, Repr

/-- The class `ProcFile`, restricted to its discrete members. `leakFile` is the
`boost::shared_ptr<LeakFile>`: `none` is the null pointer. -/
structure ProcFile where
  numEntities : Nat
  numPortals : Nat
  numPatches : Nat
  numWorldBrushes : Nat
  numWorldTriSurfs : Nat
  lights : List ProcLight
  leakFile : Option LeakFile
  deriving DecidableEq, Repr

/-- The constructor `ProcFile::ProcFile()`: the counters are zeroed, the containers and the
shared pointer are default-constructed. -/
def ProcFile.new : ProcFile :=
  { numEntities := 0, numPortals := 0, numPatches := 0, numWorldBrushes := 0,
    numWorldTriSurfs := 0, lights := [], leakFile := none }

/-- The method `ProcFile::hasLeak`: `return leakFile;`, the conversion of the shared pointer to
`bool`. -/
def ProcFile.hasLeak (pf : ProcFile) : Bool :=
  pf.leakFile.isSome

/-- The errors an output operation can report. -/
inductive IOError where
  | cannotOpen
  | cannotWrite
  deriving DecidableEq, Repr

/-- The part of the file system `saveToFile` could touch: the files with their contents and the
paths that cannot be opened for writing. -/
structure FileSystem where
  files : List (String × String)
  unwritable : List String
  deriving DecidableEq, Repr

/-- The method `ProcFile::saveToFile`: its body is the comment `// TODO`, so it returns normally
and leaves the file system as it is. -/
def ProcFile.saveToFile (_pf : ProcFile) (_path : String) (fs : FileSystem) :
    Except IOError FileSystem :=
  .ok fs

/-! ### RenderableParticleStage.h -/

/-- The stage definition `IParticleStage` as `RenderableParticleStage` reads it. The three members
are the values the code obtains after its conversions to `std::size_t`:
`timeOffsetMsec` is `static_cast<std::size_t>(SEC2MS(_stage.getTimeOffset()))`,
`cycleIndexAt t` is `static_cast<std::size_t>(floor(static_cast<float>(t) / _stage.getCycleMsec()))`
and `cycles` is `static_cast<std::size_t>(_stage.getCycles())`. The floating-point computations
themselves are not modelled: they are whatever functions the stage provides. -/
structure IParticleStage where
  timeOffsetMsec : Nat
  cycleIndexAt : Nat → Nat
  cycles : Nat

/-- A `RenderableParticleBunch` (declared in `RenderableParticleBunch.h`), as far as the stage
deals with it: the index and the seed it is constructed with, and the local time of the last
`update` call it received (`none` for a bunch that was never updated). -/
structure RenderableParticleBunch where
  index : Nat
  seed : Int
  localTime : Option Nat
  deriving DecidableEq, Repr

/-- The call `RenderableParticleBunch(index, seed, stage)`. -/
def RenderableParticleBunch.new (index : Nat) (seed : Int) : RenderableParticleBunch :=
  { index := index, seed := seed, localTime := none }

/-- The call `bunch->getIndex()`. -/
def RenderableParticleBunch.getIndex (b : RenderableParticleBunch) : Nat :=
  b.index

/-- The call `bunch->update(localtimeMsec)`: the geometry is regenerated for the given time. -/
def RenderableParticleBunch.update (b : RenderableParticleBunch) (localTimeMsec : Nat) :
    RenderableParticleBunch :=
  { b with localTime := some localTimeMsec }

/-- The class `RenderableParticleStage`: the stage definition, the seed table and the two slots
of `_bunches` (a null pointer is `none`). -/
structure RenderableParticleStage where
  stage : IParticleStage
  seeds : List Int
  bunch0 : Option RenderableParticleBunch
  bunch1 : Option RenderableParticleBunch

/-- The constructor: `_bunches(2)` holds two null pointers; the seeds are the numbers drawn from
the random number generator of the parent particle system. -/
def RenderableParticleStage.new (stage : IParticleStage) (seeds : List Int) :
    RenderableParticleStage :=
  { stage := stage, seeds := seeds, bunch0 := none, bunch1 := none }

/-- The method `getSeed`: `_seeds[cycleIndex % _seeds.size()]`. -/
def RenderableParticleStage.getSeed (s : RenderableParticleStage) (cycleIndex : Nat) : Int :=
  s.seeds.getD (cycleIndex % s.seeds.length) 0

/-- The method `getExistingBunchByIndex`. -/
def RenderableParticleStage.getExistingBunchByIndex (s : RenderableParticleStage) (index : Nat) :
    Option RenderableParticleBunch :=
  match s.bunch0 with
  | some b0 =>
    if b0.getIndex = index then some b0
    else
      match s.bunch1 with
      | some b1 => if b1.getIndex = index then some b1 else none
      | none => none
  | none =>
    match s.bunch1 with
    | some b1 => if b1.getIndex = index then some b1 else none
    | none => none

/-- The method `ensureBunches`. -/
def RenderableParticleStage.ensureBunches (s : RenderableParticleStage) (localTimeMSec : Nat) :
    RenderableParticleStage :=
  let curCycleIndex := s.stage.cycleIndexAt localTimeMSec
  if curCycleIndex = 0 then
    -- This is the only active bunch (the first one), there is no previous cycle
    let b0 :=
      match s.bunch0 with
      | none => some (RenderableParticleBunch.new curCycleIndex (s.getSeed curCycleIndex))
      | some b =>
        if b.getIndex ≠ curCycleIndex then
          some (RenderableParticleBunch.new curCycleIndex (s.getSeed curCycleIndex))
        else some b
    -- Reset the previous bunch in any case
    { s with bunch0 := b0, bunch1 := none }
  else
    let prevCycleIndex := curCycleIndex - 1
    let cur := s.getExistingBunchByIndex curCycleIndex
    let prev := s.getExistingBunchByIndex prevCycleIndex
    let numCycles := s.stage.cycles
    let b0 :=
      if numCycles > 0 ∧ curCycleIndex > numCycles then none
      else
        match cur with
        | some b => some b
        | none => some (RenderableParticleBunch.new curCycleIndex (s.getSeed curCycleIndex))
    let b1 :=
      if numCycles > 0 ∧ prevCycleIndex > numCycles then none
      else
        match prev with
        | some b => some b
        | none => some (RenderableParticleBunch.new prevCycleIndex (s.getSeed prevCycleIndex))
    { s with bunch0 := b0, bunch1 := b1 }

/-- The method `update`; `time` is absolute, in msecs. -/
def RenderableParticleStage.update (s : RenderableParticleStage) (time : Nat) :
    RenderableParticleStage :=
  let timeOffset := s.stage.timeOffsetMsec
  if time < timeOffset then
    -- We are still in the timeoffset zone where particle spawn is inhibited
    { s with bunch0 := none, bunch1 := none }
  else
    let localtimeMsec := time - timeOffset
    let s1 := s.ensureBunches localtimeMsec
    { s1 with
      bunch0 := s1.bunch0.map (fun b => b.update localtimeMsec)
      bunch1 := s1.bunch1.map (fun b => b.update localtimeMsec) }

/-- A stage without time offset whose cycles last one second and that runs for a single cycle
(`cycles` = 1): its only cycle is the one with index 0. -/
def oneCycleStage : IParticleStage :=
  { timeOffsetMsec := 0, cycleIndexAt := fun t => t / 1000, cycles := 1 }

/-- A stage with a time offset of half a second, cycles of one second, and no cycle limit. -/
def delayedStage : IParticleStage :=
  { timeOffsetMsec := 500, cycleIndexAt := fun t => t / 1000, cycles := 0 }

/-! ### MapExporter.cpp -/

/-- The exceptions that can travel through the walker: `IMapWriter::FailureException` with its
`what()` text, and the exception the progress dialog throws when its cancel button was clicked
(see the comment in `MapExporter::onNodeProgress`). -/
inductive MapException where
  | failure (what : String)
  | operationAborted
  deriving DecidableEq, Repr

/-- A scene node as `pre` inspects it: the results of `Node_getEntity`, `Node_getIBrush` and
`Node_getIPatch` (`none` is the null pointer). -/
structure INode where
  entity : Option String
  brush : Option Nat
  patch : Option Nat
  deriving DecidableEq, Repr

/-- What a call of the map writer does: the stream after the call and, when the call raised
`IMapWriter::FailureException`, the text of the exception. -/
structure WriteResult where
  stream : List String
  failure : Option String
  deriving DecidableEq, Repr

/-- The interface `IMapWriter`, as far as `pre` calls it. -/
structure IMapWriter where
  beginWriteEntity : String → List String → WriteResult
  beginWriteBrush : Nat → List String → WriteResult
  beginWritePatch : Nat → List String → WriteResult

/-- The progress dialog `gtkutil::ModalProgressDialog`: the text it shows. -/
structure ModalProgressDialog where
  text : String
  deriving DecidableEq, Repr

/-- What happens around the progress dialog during one call of `onNodeProgress`: the answer of
`_dialogEventLimiter.readyForEvent()` and whether the cancel button of the dialog was clicked. -/
structure ProgressEvents where
  readyForEvent : Bool
  cancelClicked : Bool
  deriving DecidableEq, Repr

/-- The class `MapExporter`: the map stream, the global error stream it logs to, the optional
progress dialog and the node counters. -/
structure MapExporter where
  mapStream : List String
  errorStream : List String
  dialog : Option ModalProgressDialog
  totalNodeCount : Nat
  curNodeCount : Nat
  deriving DecidableEq, Repr

/-- The call `_dialog->setTextAndFraction(text, fraction)`: "This will throw an exception if the
cancel button is clicked". -/
def ModalProgressDialog.setTextAndFraction (_d : ModalProgressDialog) (text : String)
    (cancelClicked : Bool) : Except MapException ModalProgressDialog :=
  if cancelClicked then .error .operationAborted else .ok { text := text }

/-- The method `MapExporter::onNodeProgress`; it contains no `try`, so an exception of the dialog
leaves it. -/
def MapExporter.onNodeProgress (st : MapExporter) (env : ProgressEvents) :
    MapExporter × Except MapException Unit :=
  let st1 := { st with curNodeCount := st.curNodeCount + 1 }
  match st1.dialog with
  | some d =>
    if env.readyForEvent then
      match d.setTextAndFraction ("Writing node " ++ toString st1.curNodeCount)
          env.cancelClicked with
      | .ok d1 => ({ st1 with dialog := some d1 }, .ok ())
      | .error e => (st1, .error e)
    else (st1, .ok ())
  | none => (st1, .ok ())

/-- The `try` block of `MapExporter::pre`: the exporter afterwards and how the block was left: by
an exception, by one of its `return` statements (`some` of the value) or by its end (`none`). -/
def MapExporter.preTryBlock (w : IMapWriter) (env : ProgressEvents) (st : MapExporter)
    (node : INode) : MapExporter × Except MapException (Option Bool) :=
  match node.entity with
  | some entity =>
    match st.onNodeProgress env with
    | (st1, .error e) => (st1, .error e)
    | (st1, .ok _) =>
      let r := w.beginWriteEntity entity st1.mapStream
      match r.failure with
      | some what => ({ st1 with mapStream := r.stream }, .error (.failure what))
      | none => ({ st1 with mapStream := r.stream }, .ok (some true))
  | none =>
    match node.brush with
    | some brush =>
      match st.onNodeProgress env with
      | (st1, .error e) => (st1, .error e)
      | (st1, .ok _) =>
        let r := w.beginWriteBrush brush st1.mapStream
        match r.failure with
        | some what => ({ st1 with mapStream := r.stream }, .error (.failure what))
        | none => ({ st1 with mapStream := r.stream }, .ok (some true))
    | none =>
      match node.patch with
      | some patch =>
        match st.onNodeProgress env with
        | (st1, .error e) => (st1, .error e)
        | (st1, .ok _) =>
          let r := w.beginWritePatch patch st1.mapStream
          match r.failure with
          | some what => ({ st1 with mapStream := r.stream }, .error (.failure what))
          | none => ({ st1 with mapStream := r.stream }, .ok (some true))
      | none => (st, .ok none)

/-- The outcome of a call of `pre`: the value returned or the exception that left the call, and
the exporter afterwards. -/
structure PreOutcome where
  result : Except MapException Bool
  exporter : MapExporter

/-- The line `pre` writes to the global error stream for a caught `FailureException`. -/
def preFailureMessage (what : String) : String :=
  "Failure exporting a node (pre): " ++ what

/-- The method `MapExporter::pre`: the `try` block, the handler
`catch (IMapWriter::FailureException& ex)`, which logs, and the final `return true`. An exception
of another type is not caught. -/
def MapExporter.pre (w : IMapWriter) (env : ProgressEvents) (st : MapExporter) (node : INode) :
    PreOutcome :=
  match st.preTryBlock w env node with
  | (st1, .ok (some b)) => { result := .ok b, exporter := st1 }
  | (st1, .ok none) => { result := .ok true, exporter := st1 }
  | (st1, .error (.failure what)) =>
    { result := .ok true,
      exporter := { st1 with errorStream := st1.errorStream ++ [preFailureMessage what] } }
  | (st1, .error .operationAborted) => { result := .error .operationAborted, exporter := st1 }

/-- Whether the progress dialog raises its cancellation exception during `pre` of a node: the node
is an entity, a brush or a patch (only then `onNodeProgress` runs), the dialog exists, the event
limiter lets the update through and the cancel button was clicked. -/
def progressAborts (env : ProgressEvents) (st : MapExporter) (node : INode) : Bool :=
  (node.entity.isSome || node.brush.isSome || node.patch.isSome) &&
    st.dialog.isSome && env.readyForEvent && env.cancelClicked

/-- The `FailureException` text, if any, of the writer call `pre` makes for a node. -/
def writerFailure (w : IMapWriter) (st : MapExporter) (node : INode) : Option String :=
  match node.entity with
  | some entity => (w.beginWriteEntity entity st.mapStream).failure
  | none =>
    match node.brush with
    | some brush => (w.beginWriteBrush brush st.mapStream).failure
    | none =>
      match node.patch with
      | some patch => (w.beginWritePatch patch st.mapStream).failure
      | none => none

/-- A writer that writes entities and patches and raises `FailureException` on every brush. -/
def brushFailingWriter : IMapWriter :=
  { beginWriteEntity := fun e out => { stream := out ++ ["entity " ++ e], failure := none }
    beginWriteBrush := fun _ out => { stream := out, failure := some "brush not supported" }
    beginWritePatch := fun _ out => { stream := out ++ ["patch"], failure := none } }

/-- An exporter with an open progress dialog. -/
def exporterWithDialog : MapExporter :=
  { mapStream := [], errorStream := [], dialog := some { text := "" },
    totalNodeCount := 10, curNodeCount := 0 }

/-! ### ObjectiveConditionsDialog.cpp -/

/-- The constant `INT_MAX` of a 32-bit `int`. -/
def INT_MAX : Nat := 2147483647

/-- The lookup `m.find(i)` in an `ObjectiveEntity::ConditionMap`, a `std::map` from `int` to
`ObjectiveConditionPtr`, kept as the list of its entries in key order; `none` is `m.end()`. -/
def conditionMapFind {Cond : Type} : List (Int × Cond) → Int → Option Cond
  | [], _ => none
  | (k, c) :: rest, i => if k = i then some c else conditionMapFind rest i

/-- The assignment `m[i] = c` of a `std::map`: the entry is replaced, or inserted at its place in
key order. -/
def conditionMapAssign {Cond : Type} : List (Int × Cond) → Int → Cond → List (Int × Cond)
  | [], i, c => [(i, c)]
  | (k, v) :: rest, i, c =>
    if i < k then (i, c) :: (k, v) :: rest
    else if i = k then (k, c) :: rest
    else (k, v) :: conditionMapAssign rest i c

/-- The call `m.erase(index)` of a `std::map`. -/
def conditionMapErase {Cond : Type} (m : List (Int × Cond)) (index : Int) : List (Int × Cond) :=
  m.filter (fun e => e.1 ≠ index)

/-- The class `ObjectiveEntity` (declared in `ObjectiveEntity.h`), as far as the dialog uses it:
the map of objective conditions. The type `Cond` stands for `ObjectiveCondition`. -/
structure ObjectiveEntity (Cond : Type) where
  objConditions : List (Int × Cond)

/-- The getter `ObjectiveEntity::getObjectiveConditions`. -/
def ObjectiveEntity.getObjectiveConditions {Cond : Type} (e : ObjectiveEntity Cond) :
    List (Int × Cond) :=
  e.objConditions

/-- The setter `ObjectiveEntity::setObjectiveConditions`. -/
def ObjectiveEntity.setObjectiveConditions {Cond : Type} (_e : ObjectiveEntity Cond)
    (conditions : List (Int × Cond)) : ObjectiveEntity Cond :=
  { objConditions := conditions }

/-- The class `ObjectiveConditionsDialog` together with the entity its reference `_objectiveEnt`
points to: the working set `_objConditions`, the rows (number, description) of the list store
`_objectiveConditionList`, and whether the window was destroyed. -/
structure ObjectiveConditionsDialog (Cond : Type) where
  objectiveEnt : ObjectiveEntity Cond
  objConditions : List (Int × Cond)
  objectiveConditionList : List (Int × String)
  destroyed : Bool

namespace ObjectiveConditionsDialog

variable {Cond : Type}

/-- The constructor, as far as the conditions go: "Copy the objective conditions to our working
set". -/
def create (objectiveEnt : ObjectiveEntity Cond) : ObjectiveConditionsDialog Cond :=
  { objectiveEnt := objectiveEnt
    objConditions := objectiveEnt.getObjectiveConditions
    objectiveConditionList := []
    destroyed := false }

/-- The method `clear`. -/
def clear (d : ObjectiveConditionsDialog Cond) : ObjectiveConditionsDialog Cond :=
  { d with objectiveConditionList := [] }

/-- The method `populateWidgets`: one row for each entry of the working set. -/
def populateWidgets (d : ObjectiveConditionsDialog Cond) : ObjectiveConditionsDialog Cond :=
  { d.clear with
    objectiveConditionList := d.objConditions.map (fun e => (e.1, "empty description")) }

/-- The method `_preShow`. -/
def _preShow (d : ObjectiveConditionsDialog Cond) : ObjectiveConditionsDialog Cond :=
  d.populateWidgets

/-- The loop `for (int i = ...; i < INT_MAX; ++i)` of `_onAddObjCondition`, started at `i` with
`remaining` = `INT_MAX - i` iterations to go; when the loop ends without a free index the
`std::runtime_error` is thrown. -/
def addLoop [Inhabited Cond] (d : ObjectiveConditionsDialog Cond) :
    Nat → Nat → Except String (ObjectiveConditionsDialog Cond)
  | _, 0 => .error "Ran out of free objective condition indices."
  | i, remaining + 1 =>
    match conditionMapFind d.objConditions (i : Int) with
    | none =>
      -- Create a new condition, refresh the dialog
      .ok (populateWidgets
        { d with objConditions := conditionMapAssign d.objConditions (i : Int) default })
    | some _ => addLoop d (i + 1) remaining

/-- The method `_onAddObjCondition`; `default` is `new ObjectiveCondition`. -/
def _onAddObjCondition [Inhabited Cond] (d : ObjectiveConditionsDialog Cond) :
    Except String (ObjectiveConditionsDialog Cond) :=
  addLoop d 1 (INT_MAX - 1)

/-- The method `_onDelObjCondition`; `index` is the condition number of the selected row, read
through `_curCondition`. -/
def _onDelObjCondition (d : ObjectiveConditionsDialog Cond) (index : Int) :
    ObjectiveConditionsDialog Cond :=
  populateWidgets { d with objConditions := conditionMapErase d.objConditions index }

/-- The call `destroy()` of the window. -/
def destroy (d : ObjectiveConditionsDialog Cond) : ObjectiveConditionsDialog Cond :=
  { d with destroyed := true }

/-- The method `_onCancel`. -/
def _onCancel (d : ObjectiveConditionsDialog Cond) : ObjectiveConditionsDialog Cond :=
  d.destroy

/-- The method `save`. -/
def save (d : ObjectiveConditionsDialog Cond) : ObjectiveConditionsDialog Cond :=
  { d with objectiveEnt := d.objectiveEnt.setObjectiveConditions d.objConditions }

/-- The method `_onOK`. -/
def _onOK (d : ObjectiveConditionsDialog Cond) : ObjectiveConditionsDialog Cond :=
  d.save.destroy

end ObjectiveConditionsDialog

/-- The editing operations of the dialog user: the add button, and the delete button pressed
while the row with the given condition number is selected. -/
inductive ConditionOp where
  | add
  | del (index : Int)
  deriving DecidableEq, Repr

/-- One editing operation. An exception of `_onAddObjCondition` is thrown before anything is
modified, so the dialog is then as before. -/
def ObjectiveConditionsDialog.applyOp {Cond : Type} [Inhabited Cond]
    (d : ObjectiveConditionsDialog Cond) : ConditionOp → ObjectiveConditionsDialog Cond
  | .add =>
    match d._onAddObjCondition with
    | .ok d1 => d1
    | .error _ => d
  | .del index => d._onDelObjCondition index

/-- A sequence of editing operations, in order. -/
def ObjectiveConditionsDialog.applyOps {Cond : Type} [Inhabited Cond]
    (d : ObjectiveConditionsDialog Cond) (ops : List ConditionOp) :
    ObjectiveConditionsDialog Cond :=
  ops.foldl ObjectiveConditionsDialog.applyOp d

/-- The dialog as opened on an entity: constructed and shown. -/
def ObjectiveConditionsDialog.opened {Cond : Type} (ent : ObjectiveEntity Cond) :
    ObjectiveConditionsDialog Cond :=
  (ObjectiveConditionsDialog.create ent)._preShow

/-! ### ModelSelector.cpp -/

/-- The constant `MODELS_FOLDER`. -/
def MODELS_FOLDER : String := "models/"

/-- The constant `ASE_EXTENSION`. -/
def ASE_EXTENSION : String := ".ase"

/-- The constant `LWO_EXTENSION`. -/
def LWO_EXTENSION : String := ".lwo"

/-- The constant `LWO_ICON`. -/
def LWO_ICON : String := "model16red.png"

/-- The constant `ASE_ICON`. -/
def ASE_ICON : String := "model16green.png"

/-- The constant `SKIN_ICON`. -/
def SKIN_ICON : String := "skin16.png"

/-- The constant `FOLDER_ICON`. -/
def FOLDER_ICON : String := "folder16.png"

/-- A row of the tree store: the row it was appended under (a `GtkTreeIter*`, `none` for `NULL`)
and the columns `NAME_COLUMN`, `FULLNAME_COLUMN`, `SKIN_COLUMN` and `IMAGE_COLUMN` (the icon is
named by its file). A `GtkTreeIter` of a row is the position of the row in the store. -/
structure TreeStoreRow where
  parent : Option Nat
  name : String
  fullName : String
  skin : String
  image : String
  deriving DecidableEq, Repr

/-- The class `ModelSelector`: the remembered model `_lastModel`, the row selected in the tree
view (what `gtk_tree_selection_get_selected` yields on `_selection`), the rows of `_infoStore`
and whether the window is shown. -/
structure ModelSelector where
  lastModel : String
  selection : Option TreeStoreRow
  infoStore : List (String × String)
  shown : Bool
  deriving DecidableEq, Repr

/-- The events the recursive main loop delivers to the dialog: the tree selection changes to a row
(or to none), the OK button or the Cancel button is clicked, or the window is closed
(`delete_event`). -/
inductive DialogEvent where
  | selectionChanged (row : Option TreeStoreRow)
  | okClicked
  | cancelClicked
  | deleteEvent
  deriving DecidableEq, Repr

namespace ModelSelector

/-- The constructor: `_lastModel("")`, nothing selected, the window not yet shown. -/
def new : ModelSelector :=
  { lastModel := "", selection := none, infoStore := [], shown := false }

/-- The method `getSelectedValue(FULLNAME_COLUMN)`. -/
def getSelectedFullName (s : ModelSelector) : String :=
  match s.selection with
  | some row => row.fullName
  | none => ""

/-- The method `updateInfoTable`. -/
def updateInfoTable (s : ModelSelector) : ModelSelector :=
  let mName := s.getSelectedFullName
  if mName.isEmpty then { s with infoStore := [] }
  else { s with infoStore := [("Model name", mName)] }

/-- The callback `callbackSelChanged`, run after the selection changed to `row`. -/
def callbackSelChanged (s : ModelSelector) (row : Option TreeStoreRow) : ModelSelector :=
  updateInfoTable { s with selection := row }

/-- The callback `callbackHide`, connected to `delete_event`: it quits the main loop and hides the
window. -/
def callbackHide (s : ModelSelector) : ModelSelector :=
  { s with shown := false }

/-- The callback `callbackOK`: it remembers the selected model, quits the main loop and hides the
window. -/
def callbackOK (s : ModelSelector) : ModelSelector :=
  { s with lastModel := s.getSelectedFullName, shown := false }

/-- The callback `callbackCancel`: it empties `_lastModel`, quits the main loop and hides the
window. -/
def callbackCancel (s : ModelSelector) : ModelSelector :=
  { s with lastModel := "", shown := false }

/-- The recursive main loop `gtk_main()` over the events that arrive: it runs the callbacks until
one of them calls `gtk_main_quit()`. It yields `none` when the events end before that: the loop
then keeps blocking. -/
def gtkMain (s : ModelSelector) : List DialogEvent → Option ModelSelector
  | [] => none
  | .selectionChanged row :: rest => gtkMain (s.callbackSelChanged row) rest
  | .okClicked :: _ => some s.callbackOK
  | .cancelClicked :: _ => some s.callbackCancel
  | .deleteEvent :: _ => some s.callbackHide

/-- The method `showAndBlock`: the returned string and the dialog afterwards. -/
def showAndBlock (s : ModelSelector) (events : List DialogEvent) :
    Option (String × ModelSelector) :=
  match gtkMain { s with shown := true } events with
  | some s1 => some (s1.lastModel, s1)
  | none => none

/-- The static function `chooseModel`: `selector` is the function-local static `_selector`, which
is constructed by `ModelSelector.new` before the first call and lives on between the calls. -/
def chooseModel (selector : ModelSelector) (events : List DialogEvent) :
    Option (String × ModelSelector) :=
  selector.showAndBlock events

end ModelSelector

/-- A model row of the tree. -/
def chairRow : TreeStoreRow :=
  { parent := some 1, name := "chair1.lwo", fullName := "models/darkmod/props/chair1.lwo",
    skin := "", image := "model16red.png" }

/-- The number of values of an `unsigned int`, 2^32. -/
def UINT_RANGE : Nat := 4294967296

/-- The constant `std::string::npos`, the largest value of `std::string::size_type`, which is 64
bits wide (the LP64 data model), while an `unsigned int` has 32 bits. -/
def npos : Nat := 18446744073709551615

/-- The position of the last occurrence of a character in a character sequence. -/
def lastIndexOf (c : Char) : List Char → Option Nat
  | [] => none
  | x :: xs =>
    match lastIndexOf c xs with
    | some i => some (i + 1)
    | none => if x = c then some 0 else none

/-- The call `dirPath.rfind("/")`: the position of the last slash, or `npos`. -/
def rfindSlash (dirPath : String) : Nat :=
  match lastIndexOf '/' dirPath.data with
  | some i => i
  | none => npos

/-- The variable `unsigned int slashPos = dirPath.rfind("/")`: the `size_type` result of `rfind`
converted to `unsigned int`, that is reduced modulo 2^32. -/
def slashPosOf (dirPath : String) : Nat :=
  rfindSlash dirPath % UINT_RANGE

/-- The call `s.substr(pos, n)` for `pos` within the string. -/
def substr (s : String) (pos n : Nat) : String :=
  ⟨(s.data.drop pos).take n⟩

/-- The call `s.substr(pos)` for `pos` within the string. -/
def substrFrom (s : String) (pos : Nat) : String :=
  ⟨s.data.drop pos⟩

/-- The predicate `boost::algorithm::iends_with(input, test)`: `test` is a suffix of `input` when
the characters are compared by `is_iequal`, that is after `toupper` in the classic locale. -/
def iends_with (input test : String) : Bool :=
  (test.data.map Char.toUpper).isSuffixOf (input.data.map Char.toUpper)

/-- The lookup `_dirIterMap.find(dirPath)` in the directory cache, a hash map kept as the list of
its entries; `none` is `_dirIterMap.end()`. -/
def findIter : List (String × Nat) → String → Option Nat
  | [], _ => none
  | (k, it) :: rest, dirPath => if k = dirPath then some it else findIter rest dirPath

/-- The struct `ModelFileFunctor`: the rows of the tree store `_store`, in the order they were
appended, and the directory cache `_dirIterMap`. -/
structure ModelFileFunctor where
  store : List TreeStoreRow
  dirIterMap : List (String × Nat)
  deriving DecidableEq, Repr

/-- The constructor `ModelFileFunctor(store)` over the tree store as `ModelSelector` has just
created it: no rows, an empty cache. -/
def ModelFileFunctor.new : ModelFileFunctor :=
  { store := [], dirIterMap := [] }

/-- The flag `isModel` of `addRecursive`. -/
def isModelPath (dirPath : String) : Bool :=
  iends_with dirPath LWO_EXTENSION || iends_with dirPath ASE_EXTENSION

/-- The part of `addRecursive` after the parent was obtained: the directory or model is added to
the tree store under `parIter`, its skins are added as children, and the cache gets the entry
for `dirPath`. `skins` is `GlobalModelSkinCache().getSkinsForModel`. The result is the new
iterator `dynIter` with the functor afterwards. -/
def ModelFileFunctor.addRow (skins : String → List String) (st : ModelFileFunctor)
    (parIter : Option Nat) (dirPath : String) : Nat × ModelFileFunctor :=
  let slashPos := slashPosOf dirPath
  let skinList := skins (MODELS_FOLDER ++ dirPath)
  let numSk := skinList.length
  let nodeName :=
    substrFrom dirPath ((slashPos + 1) % UINT_RANGE) ++
      (if numSk > 0 then " [" ++ toString numSk ++ (if numSk = 1 then " skin]" else " skins]")
       else "")
  let imgPath :=
    if iends_with dirPath LWO_EXTENSION then LWO_ICON
    else if iends_with dirPath ASE_EXTENSION then ASE_ICON
    else FOLDER_ICON
  let isModel := isModelPath dirPath
  let iter := st.store.length
  let row : TreeStoreRow :=
    { parent := parIter, name := nodeName,
      fullName := if isModel then MODELS_FOLDER ++ dirPath else "",
      skin := "", image := imgPath }
  let skinRows : List TreeStoreRow :=
    skinList.map fun sk =>
      { parent := some iter, name := sk, fullName := MODELS_FOLDER ++ dirPath, skin := sk,
        image := SKIN_ICON }
  (iter, { store := st.store ++ row :: skinRows, dirIterMap := (dirPath, iter) :: st.dirIterMap })

/-- The method `addRecursive`: the cached iterator if the directory is known; otherwise the parent
(the path up to `slashPos`) is obtained recursively when `slashPos != std::string::npos`, and the
row added under it. The comparison is made in `size_type`, to which `slashPos` is converted.
The recursion of the source has no measure that decreases, so `depth` bounds the number of nested
calls: the result is the iterator with the functor afterwards, or `none` when the call does not
return within `depth` nested calls. -/
def ModelFileFunctor.addRecursive (skins : String → List String) :
    Nat → ModelFileFunctor → String → Option (Nat × ModelFileFunctor)
  | 0, _, _ => none
  | depth + 1, st, dirPath =>
    match findIter st.dirIterMap dirPath with
    | some it => some (it, st)
    | none =>
      if slashPosOf dirPath ≠ npos then
        match ModelFileFunctor.addRecursive skins depth st
            (substr dirPath 0 (slashPosOf dirPath)) with
        | some par => some (par.2.addRow skins (some par.1) dirPath)
        | none => none
      else
        some (st.addRow skins none dirPath)

/-- The functor operator `operator()`: a file that is neither LWO nor ASE is of no interest; any
other is added by `addRecursive`. The result is the functor afterwards, or `none` when the call
does not return within `depth` nested calls of `addRecursive`. -/
def ModelFileFunctor.call (skins : String → List String) (depth : Nat) (st : ModelFileFunctor)
    (file : String) : Option ModelFileFunctor :=
  if (!iends_with file LWO_EXTENSION && !iends_with file ASE_EXTENSION) = true then some st
  else
    match st.addRecursive skins depth file with
    | some r => some r.2
    | none => none

/-- No skins are defined for any model. -/
def noSkins : String → List String := fun _ => []

/-! ### Doom3EntityClass.h -/

/-- The C function `tolower` in the "C" locale: the letters `A` to `Z` are mapped to `a` to `z`,
every other character to itself. -/
def tolower (c : Char) : Char :=
  c.toLower

/-- The call `s->c_str()` read as a C string: the characters of the string up to its first NUL
character. -/
def c_str (s : String) : List Char :=
  s.data.takeWhile (fun c => c.toNat != 0)

/-- Modelled from the spec: the helper `string_compare_nocase` of `string/string.h`, which is not
part of the sources at hand. By its name, by the comment "Ignores key case" on the attribute map
and by the `ilexicographical_compare` it stands in for, it is the three-way comparison of two C
strings after case folding (the `strcasecmp` of the C library): the strings are walked in step,
the result is the difference of the first two characters that differ after `tolower` (the end of
a string counting as the NUL character), and 0 when there are none. -/
def string_compare_nocase : List Char → List Char → Int
  | [], [] => 0
  | [], b :: _ => 0 - ((tolower b).toNat : Int)
  | a :: _, [] => ((tolower a).toNat : Int) - 0
  | a :: as, b :: bs =>
    if tolower a = tolower b then string_compare_nocase as bs
    else ((tolower a).toNat : Int) - ((tolower b).toNat : Int)

/-- The functor `Doom3EntityClass::StringCompareFunctor`, `operator()` on the strings the two
`StringPtr` arguments point to: `string_compare_nocase(lhs->c_str(), rhs->c_str()) < 0`. -/
def StringCompareFunctor (lhs rhs : String) : Bool :=
  decide (string_compare_nocase (c_str lhs) (c_str rhs) < 0)

/-- The equivalence of two keys under the comparison of a `std::map`: neither compares less than
the other. -/
def keysEquivalent (a b : String) : Bool :=
  !StringCompareFunctor a b && !StringCompareFunctor b a

/-- Two characters are the same letter in possibly different case: they are equal, or one is a
capital `A` to `Z` (codes 65 to 90) and the other the small letter 32 codes further on. -/
def sameLetter (a b : Char) : Bool :=
  a == b ||
    (decide (65 ≤ a.toNat) && decide (a.toNat ≤ 90) && b.toNat == a.toNat + 32) ||
    (decide (65 ≤ b.toNat) && decide (b.toNat ≤ 90) && a.toNat == b.toNat + 32)

/-- Two character sequences differ only in letter case: they have the same length and the same
letter at every position. -/
def sameLetters : List Char → List Char → Bool
  | [], [] => true
  | a :: as, b :: bs => sameLetter a b && sameLetters as bs
  | _, _ => false

/-- Two keys differ only in letter case. -/
def differOnlyInCase (a b : String) : Bool :=
  sameLetters a.data b.data

/-- The lookup `_attributes.find(key)` in the `EntityAttributeMap`, a `std::map` ordered by
`StringCompareFunctor` and kept as the list of its entries in that order: the first entry whose
key is not less than `key` (the lower bound) is the one found, unless `key` is less than it;
`none` is `end()`. The type `Attr` stands for `EntityClassAttribute`. -/
def entityAttributeMapFind {Attr : Type} (attributes : List (String × Attr)) (key : String) :
    Option (String × Attr) :=
  match attributes.find? (fun e => !StringCompareFunctor e.1 key) with
  | some e => if StringCompareFunctor key e.1 then none else some e
  | none => none

/-- The case-folded character codes of a C string, the sequence `string_compare_nocase`
compares. -/
def foldedCodes (l : List Char) : List Nat :=
  l.map (fun c => (tolower c).toNat)

/-! ## Theorems -/

/-! ### ProcFile.h -/

theorem addGroupLight_bounds (g : ProcOptimizeGroup) (l : ProcLight)
    (h0 : 0 ≤ g.numGroupLights) (h1 : g.numGroupLights ≤ (MAX_GROUP_LIGHTS : Int))
    (h2 : (g.groupLights.length : Int) = g.numGroupLights) :
    0 ≤ (addGroupLight g l).numGroupLights ∧
      (addGroupLight g l).numGroupLights ≤ (MAX_GROUP_LIGHTS : Int) ∧
      ((addGroupLight g l).groupLights.length : Int) = (addGroupLight g l).numGroupLights := by
  unfold addGroupLight
  split
  · refine ⟨by simp only; omega, by simp only; omega, ?_⟩
    simp only [List.length_append, List.length_singleton]
    push_cast
    omega
  · exact ⟨h0, h1, h2⟩

theorem cullGroupLights_bounds (affects : ProcLight → ProcOptimizeGroup → Bool)
    (lights : List ProcLight) : ∀ g : ProcOptimizeGroup,
    0 ≤ g.numGroupLights → g.numGroupLights ≤ (MAX_GROUP_LIGHTS : Int) →
    (g.groupLights.length : Int) = g.numGroupLights →
    0 ≤ (cullGroupLights affects lights g).numGroupLights ∧
      (cullGroupLights affects lights g).numGroupLights ≤ (MAX_GROUP_LIGHTS : Int) ∧
      ((cullGroupLights affects lights g).groupLights.length : Int)
        = (cullGroupLights affects lights g).numGroupLights := by
  induction lights with
  | nil => intro g h0 h1 h2; exact ⟨h0, h1, h2⟩
  | cons l ls ih =>
    intro g h0 h1 h2
    simp only [cullGroupLights]
    by_cases ha : affects l g = true
    · rw [if_pos ha]
      obtain ⟨a, b, c⟩ := addGroupLight_bounds g l h0 h1 h2
      exact ih _ a b c
    · rw [if_neg ha]
      exact ih g h0 h1 h2

/-- C1: every ProcOptimizeGroup produced by group creation and light culling holds between 0 and
`MAX_GROUP_LIGHTS` = 16 affecting lights, whatever the number of input lights, and the lights fit
the slots of `groupLights` counted by `numGroupLights`. -/
theorem produced_numGroupLights_le (g : ProcOptimizeGroup) (h : Produced g) :
    0 ≤ g.numGroupLights ∧ g.numGroupLights ≤ 16 ∧
      (g.groupLights.length : Int) = g.numGroupLights ∧ g.groupLights.length ≤ 16 := by
  have key : 0 ≤ g.numGroupLights ∧ g.numGroupLights ≤ (MAX_GROUP_LIGHTS : Int) ∧
      (g.groupLights.length : Int) = g.numGroupLights := by
    induction h with
    | created p a s => simp [newOptimizeGroup, MAX_GROUP_LIGHTS]
    | culled affects lights g _ ih =>
      exact cullGroupLights_bounds affects lights g ih.1 ih.2.1 ih.2.2
  obtain ⟨a, b, c⟩ := key
  simp only [MAX_GROUP_LIGHTS] at b
  refine ⟨a, by exact_mod_cast b, c, ?_⟩
  have : (g.groupLights.length : Int) ≤ 16 := by rw [c]; exact_mod_cast b
  exact_mod_cast this

/-- Witness of C1: a group culled against seventeen lights that all affect it holds exactly 16. -/
theorem produced_numGroupLights_le_witness :
    (cullGroupLights (fun _ _ => true) ((List.range 17).map ProcLight.mk)
        (newOptimizeGroup 3 1 false)).numGroupLights = 16 ∧
      (0 ≤ (cullGroupLights (fun _ _ => true) ((List.range 17).map ProcLight.mk)
          (newOptimizeGroup 3 1 false)).numGroupLights ∧
        (cullGroupLights (fun _ _ => true) ((List.range 17).map ProcLight.mk)
          (newOptimizeGroup 3 1 false)).numGroupLights ≤ 16 ∧
        ((cullGroupLights (fun _ _ => true) ((List.range 17).map ProcLight.mk)
          (newOptimizeGroup 3 1 false)).groupLights.length : Int)
          = (cullGroupLights (fun _ _ => true) ((List.range 17).map ProcLight.mk)
              (newOptimizeGroup 3 1 false)).numGroupLights ∧
        (cullGroupLights (fun _ _ => true) ((List.range 17).map ProcLight.mk)
          (newOptimizeGroup 3 1 false)).groupLights.length ≤ 16) :=
  ⟨by decide, produced_numGroupLights_le _
    (Produced.culled _ _ _ (Produced.created 3 1 false))⟩

/-- C2 (the code at the failing input): on a file system where the destination cannot be opened
for writing, `saveToFile` reports no error at all; it returns normally with the file system
untouched. -/
theorem saveToFile_unwritable_reports_no_error :
    ProcFile.saveToFile ProcFile.new "/readonly/maps/test.proc"
        { files := [], unwritable := ["/readonly/maps/test.proc"] }
      = .ok { files := [], unwritable := ["/readonly/maps/test.proc"] } := by
  rfl

/-- C3: `hasLeak` is true exactly when a leak file is attached, and a newly constructed ProcFile
reports no leak. -/
theorem hasLeak_iff_leakFile :
    (∀ pf : ProcFile, pf.hasLeak = true ↔ ∃ lf, pf.leakFile = some lf) ∧
      ProcFile.new.hasLeak = false := by
  refine ⟨fun pf => ?_, rfl⟩
  simp [ProcFile.hasLeak, Option.isSome_iff_exists]

/-! ### RenderableParticleStage.h -/

/-- C4: for every time strictly below the time offset of the stage, both bunch slots are empty
after `update`, whatever they held before. -/
theorem update_in_timeOffset_zone (s : RenderableParticleStage) (time : Nat)
    (h : time < s.stage.timeOffsetMsec) :
    (s.update time).bunch0 = none ∧ (s.update time).bunch1 = none := by
  simp [RenderableParticleStage.update, h]

/-- Witness of C4: a stage holding two bunches loses both at time 499 with an offset of 500. -/
theorem update_in_timeOffset_zone_witness :
    (RenderableParticleStage.update
        { stage := delayedStage, seeds := [7, 11],
          bunch0 := some (RenderableParticleBunch.new 3 7),
          bunch1 := some (RenderableParticleBunch.new 2 11) } 499).bunch0 = none ∧
    (RenderableParticleStage.update
        { stage := delayedStage, seeds := [7, 11],
          bunch0 := some (RenderableParticleBunch.new 3 7),
          bunch1 := some (RenderableParticleBunch.new 2 11) } 499).bunch1 = none :=
  update_in_timeOffset_zone _ 499 (by decide)

theorem getExistingBunchByIndex_index (s : RenderableParticleStage) (index : Nat)
    (b : RenderableParticleBunch) (h : s.getExistingBunchByIndex index = some b) :
    b.index = index := by
  unfold RenderableParticleStage.getExistingBunchByIndex at h
  simp only [RenderableParticleBunch.getIndex] at h
  split at h
  · split at h
    · cases h; assumption
    · split at h
      · split at h
        · cases h; assumption
        · cases h
      · cases h
  · split at h
    · split at h
      · cases h; assumption
      · cases h
    · cases h

/-- The slots after `ensureBunches`, in terms of the cycle index it computes. -/
theorem ensureBunches_slots (s : RenderableParticleStage) (t : Nat) :
    (∀ b, (s.ensureBunches t).bunch0 = some b → b.index = s.stage.cycleIndexAt t) ∧
    (∀ b, (s.ensureBunches t).bunch1 = some b →
      0 < s.stage.cycleIndexAt t ∧ b.index = s.stage.cycleIndexAt t - 1) := by
  unfold RenderableParticleStage.ensureBunches
  by_cases hc : s.stage.cycleIndexAt t = 0
  · simp only [hc, if_true]
    refine ⟨fun b hb => ?_, fun b hb => by cases hb⟩
    simp only [RenderableParticleBunch.getIndex] at hb
    split at hb
    · cases hb; rfl
    · split at hb
      · cases hb; rfl
      · rename_i hne
        cases hb
        simpa using hne
  · simp only [hc, if_false]
    refine ⟨fun b hb => ?_, fun b hb => ⟨Nat.pos_of_ne_zero hc, ?_⟩⟩
    · simp only at hb
      split at hb
      · cases hb
      · split at hb
        · rename_i hcur
          cases hb
          exact getExistingBunchByIndex_index s _ _ hcur
        · cases hb; rfl
    · simp only at hb
      split at hb
      · cases hb
      · split at hb
        · rename_i hprev
          cases hb
          exact getExistingBunchByIndex_index s _ _ hprev
        · cases hb; rfl

/-- C5: after `update` at or past the time offset, with `c` the current cycle index: slot 0 is
empty or holds the bunch with index `c`, slot 1 is empty or holds the bunch with index `c - 1`
(and then `c` is positive), and slot 1 is empty when `c = 0`. -/
theorem update_slots_current_and_previous (s : RenderableParticleStage) (time : Nat)
    (h : s.stage.timeOffsetMsec ≤ time) :
    ((s.update time).bunch0 = none ∨
      ∃ b, (s.update time).bunch0 = some b ∧
        b.getIndex = s.stage.cycleIndexAt (time - s.stage.timeOffsetMsec)) ∧
    ((s.update time).bunch1 = none ∨
      ∃ b, (s.update time).bunch1 = some b ∧
        0 < s.stage.cycleIndexAt (time - s.stage.timeOffsetMsec) ∧
        b.getIndex = s.stage.cycleIndexAt (time - s.stage.timeOffsetMsec) - 1) ∧
    (s.stage.cycleIndexAt (time - s.stage.timeOffsetMsec) = 0 → (s.update time).bunch1 = none) := by
  have hnot : ¬ time < s.stage.timeOffsetMsec := Nat.not_lt.mpr h
  obtain ⟨h0, h1⟩ := ensureBunches_slots s (time - s.stage.timeOffsetMsec)
  simp only [RenderableParticleStage.update, hnot, if_false, RenderableParticleBunch.getIndex]
  refine ⟨?_, ?_, ?_⟩
  · cases hb : (s.ensureBunches (time - s.stage.timeOffsetMsec)).bunch0 with
    | none => left; simp
    | some b =>
      right
      exact ⟨b.update (time - s.stage.timeOffsetMsec), by simp, h0 b hb⟩
  · cases hb : (s.ensureBunches (time - s.stage.timeOffsetMsec)).bunch1 with
    | none => left; simp
    | some b =>
      right
      exact ⟨b.update (time - s.stage.timeOffsetMsec), by simp, h1 b hb⟩
  · intro hc
    cases hb : (s.ensureBunches (time - s.stage.timeOffsetMsec)).bunch1 with
    | none => simp
    | some b =>
      have := (h1 b hb).1
      omega

/-- Witness of C5: a fresh stage with offset 500 and one-second cycles, updated at time 2700
(local time 2200, cycle 2), holds the bunches 2 and 1. -/
theorem update_slots_current_and_previous_witness :
    (((RenderableParticleStage.new delayedStage [7, 11]).update 2700).bunch0.map
        RenderableParticleBunch.getIndex = some 2 ∧
      ((RenderableParticleStage.new delayedStage [7, 11]).update 2700).bunch1.map
        RenderableParticleBunch.getIndex = some 1) ∧
    ((((RenderableParticleStage.new delayedStage [7, 11]).update 2700).bunch0 = none ∨
      ∃ b, ((RenderableParticleStage.new delayedStage [7, 11]).update 2700).bunch0 = some b ∧
        b.getIndex = (RenderableParticleStage.new delayedStage [7, 11]).stage.cycleIndexAt
          (2700 - (RenderableParticleStage.new delayedStage [7, 11]).stage.timeOffsetMsec)) ∧
    (((RenderableParticleStage.new delayedStage [7, 11]).update 2700).bunch1 = none ∨
      ∃ b, ((RenderableParticleStage.new delayedStage [7, 11]).update 2700).bunch1 = some b ∧
        0 < (RenderableParticleStage.new delayedStage [7, 11]).stage.cycleIndexAt
          (2700 - (RenderableParticleStage.new delayedStage [7, 11]).stage.timeOffsetMsec) ∧
        b.getIndex = (RenderableParticleStage.new delayedStage [7, 11]).stage.cycleIndexAt
          (2700 - (RenderableParticleStage.new delayedStage [7, 11]).stage.timeOffsetMsec) - 1) ∧
    ((RenderableParticleStage.new delayedStage [7, 11]).stage.cycleIndexAt
        (2700 - (RenderableParticleStage.new delayedStage [7, 11]).stage.timeOffsetMsec) = 0 →
      ((RenderableParticleStage.new delayedStage [7, 11]).update 2700).bunch1 = none)) :=
  ⟨by decide, update_slots_current_and_previous _ 2700 (by decide)⟩

/-- C6 (the code at the failing input): a stage with `cycles` = 1 has the single cycle 0, yet at
local time 1000 (cycle index 1) `update` keeps a bunch with index 1 in slot 0, and at local time
2000 (cycle index 2) it keeps a bunch with index 1 in slot 1: the test
`curCycleIndex > numCycles` lets the index `numCycles` through. -/
theorem update_keeps_bunch_past_cycle_count :
    ((RenderableParticleStage.new oneCycleStage [7, 11]).update 1000).bunch0
        = some { index := 1, seed := 11, localTime := some 1000 } ∧
      ((RenderableParticleStage.new oneCycleStage [7, 11]).update 1000).bunch1
        = some { index := 0, seed := 7, localTime := some 1000 } ∧
      ((RenderableParticleStage.new oneCycleStage [7, 11]).update 2000).bunch0 = none ∧
      ((RenderableParticleStage.new oneCycleStage [7, 11]).update 2000).bunch1
        = some { index := 1, seed := 11, localTime := some 2000 } := by
  decide

/-! ### MapExporter.cpp -/

theorem onNodeProgress_of_not_aborts (st : MapExporter) (env : ProgressEvents)
    (h : (st.dialog.isSome && env.readyForEvent && env.cancelClicked) = false) :
    (st.onNodeProgress env).2 = .ok () ∧
      (st.onNodeProgress env).1.mapStream = st.mapStream ∧
      (st.onNodeProgress env).1.errorStream = st.errorStream := by
  unfold MapExporter.onNodeProgress
  cases hd : st.dialog with
  | none => simp
  | some d =>
    cases hr : env.readyForEvent with
    | false => simp
    | true =>
      have hc : env.cancelClicked = false := by simpa [hd, hr] using h
      simp [ModalProgressDialog.setTextAndFraction, hc]

theorem onNodeProgress_of_aborts (st : MapExporter) (env : ProgressEvents)
    (h : (st.dialog.isSome && env.readyForEvent && env.cancelClicked) = true) :
    (st.onNodeProgress env).2 = .error .operationAborted := by
  unfold MapExporter.onNodeProgress
  simp only [Bool.and_eq_true] at h
  obtain ⟨⟨hd, hr⟩, hc⟩ := h
  obtain ⟨d, hd⟩ := Option.isSome_iff_exists.mp hd
  simp [hd, hr, hc, ModalProgressDialog.setTextAndFraction]

/-- C7 (counterexample): with an open progress dialog whose cancel button was clicked, `pre` of an
entity node does not return true; the exception of the dialog leaves the call. -/
theorem pre_entity_cancelled_propagates :
    (MapExporter.pre brushFailingWriter { readyForEvent := true, cancelClicked := true }
        exporterWithDialog { entity := some "worldspawn", brush := none, patch := none }).result
      = .error .operationAborted ∧
    (MapExporter.pre brushFailingWriter { readyForEvent := true, cancelClicked := true }
        exporterWithDialog { entity := some "worldspawn", brush := none, patch := none }).result
      ≠ .ok true := by
  constructor
  · rfl
  · intro h
    cases h

/-- Whenever the progress dialog raises its cancellation exception during `pre` (the node is an
entity, a brush or a patch, the dialog exists, the event limiter lets the update through and
cancel was clicked), that exception leaves `pre`, whatever the node and the writer. -/
theorem pre_propagates_when_progress_aborted (w : IMapWriter) (env : ProgressEvents)
    (st : MapExporter) (node : INode) (h : progressAborts env st node = true) :
    (MapExporter.pre w env st node).result = .error .operationAborted := by
  unfold progressAborts at h
  simp only [Bool.and_eq_true] at h
  obtain ⟨⟨⟨hn, hd⟩, hr⟩, hc⟩ := h
  have hp : (st.dialog.isSome && env.readyForEvent && env.cancelClicked) = true := by
    simp [hd, hr, hc]
  have ha := onNodeProgress_of_aborts st env hp
  unfold MapExporter.pre MapExporter.preTryBlock
  rcases hq : st.onNodeProgress env with ⟨st1, r⟩
  rw [hq] at ha
  simp only at ha
  subst ha
  cases he : node.entity with
  | some entity => simp
  | none =>
    cases hb : node.brush with
    | some brush => simp
    | none =>
      cases hpa : node.patch with
      | some patch => simp
      | none => simp [he, hb, hpa] at hn

/-- C7 (amended): whenever the progress dialog does not raise its cancellation exception, `pre`
returns true: for entity, brush and patch nodes, for nodes of any other kind, and also when the
map writer raises `FailureException`, which is then logged to the error stream and not
propagated. -/
theorem pre_returns_true_unless_progress_aborted (w : IMapWriter) (env : ProgressEvents)
    (st : MapExporter) (node : INode) (h : progressAborts env st node = false) :
    (MapExporter.pre w env st node).result = .ok true ∧
      (∀ what, writerFailure w st node = some what →
        (MapExporter.pre w env st node).exporter.errorStream
          = st.errorStream ++ [preFailureMessage what]) ∧
      (writerFailure w st node = none →
        (MapExporter.pre w env st node).exporter.errorStream = st.errorStream) := by
  unfold progressAborts at h
  unfold MapExporter.pre MapExporter.preTryBlock writerFailure
  cases he : node.entity with
  | some entity =>
    have hp : (st.dialog.isSome && env.readyForEvent && env.cancelClicked) = false := by
      simpa [he, Bool.and_assoc] using h
    obtain ⟨h1, h2, h3⟩ := onNodeProgress_of_not_aborts st env hp
    rcases hq : st.onNodeProgress env with ⟨st1, r⟩
    rw [hq] at h1 h2 h3
    simp only at h1 h2 h3
    subst h1
    simp only [h2]
    cases hf : (w.beginWriteEntity entity st.mapStream).failure with
    | none => simp [h3]
    | some what => simp [h3]
  | none =>
    cases hb : node.brush with
    | some brush =>
      have hp : (st.dialog.isSome && env.readyForEvent && env.cancelClicked) = false := by
        simpa [he, hb, Bool.and_assoc] using h
      obtain ⟨h1, h2, h3⟩ := onNodeProgress_of_not_aborts st env hp
      rcases hq : st.onNodeProgress env with ⟨st1, r⟩
      rw [hq] at h1 h2 h3
      simp only at h1 h2 h3
      subst h1
      simp only [h2]
      cases hf : (w.beginWriteBrush brush st.mapStream).failure with
      | none => simp [h3]
      | some what => simp [h3]
    | none =>
      cases hpa : node.patch with
      | some patch =>
        have hp : (st.dialog.isSome && env.readyForEvent && env.cancelClicked) = false := by
          simpa [he, hb, hpa, Bool.and_assoc] using h
        obtain ⟨h1, h2, h3⟩ := onNodeProgress_of_not_aborts st env hp
        rcases hq : st.onNodeProgress env with ⟨st1, r⟩
        rw [hq] at h1 h2 h3
        simp only at h1 h2 h3
        subst h1
        simp only [h2]
        cases hf : (w.beginWritePatch patch st.mapStream).failure with
        | none => simp [h3]
        | some what => simp [h3]
      | none => simp

/-- Witness of C7 (amended): a brush node on which the writer raises `FailureException`, with the
progress dialog open and not cancelled: `pre` returns true and logs the failure. -/
theorem pre_returns_true_unless_progress_aborted_witness :
    (MapExporter.pre brushFailingWriter { readyForEvent := true, cancelClicked := false }
        exporterWithDialog { entity := none, brush := some 4, patch := none }).exporter.errorStream
      = ["Failure exporting a node (pre): brush not supported"] ∧
    ((MapExporter.pre brushFailingWriter { readyForEvent := true, cancelClicked := false }
        exporterWithDialog { entity := none, brush := some 4, patch := none }).result = .ok true ∧
      (∀ what, writerFailure brushFailingWriter exporterWithDialog
          { entity := none, brush := some 4, patch := none } = some what →
        (MapExporter.pre brushFailingWriter { readyForEvent := true, cancelClicked := false }
          exporterWithDialog { entity := none, brush := some 4, patch := none }).exporter.errorStream
          = exporterWithDialog.errorStream ++ [preFailureMessage what]) ∧
      (writerFailure brushFailingWriter exporterWithDialog
          { entity := none, brush := some 4, patch := none } = none →
        (MapExporter.pre brushFailingWriter { readyForEvent := true, cancelClicked := false }
          exporterWithDialog { entity := none, brush := some 4, patch := none }).exporter.errorStream
          = exporterWithDialog.errorStream)) :=
  ⟨by decide, pre_returns_true_unless_progress_aborted _ _ _ _ (by decide)⟩

/-! ### ObjectiveConditionsDialog.cpp -/

theorem addLoop_objectiveEnt {Cond : Type} [Inhabited Cond] (d : ObjectiveConditionsDialog Cond)
    (remaining : Nat) : ∀ (i : Nat) (d1 : ObjectiveConditionsDialog Cond),
    ObjectiveConditionsDialog.addLoop d i remaining = .ok d1 →
      d1.objectiveEnt = d.objectiveEnt := by
  induction remaining with
  | zero =>
    intro i d1 h
    simp [ObjectiveConditionsDialog.addLoop] at h
  | succ n ih =>
    intro i d1 h
    simp only [ObjectiveConditionsDialog.addLoop] at h
    split at h
    · cases h
      rfl
    · exact ih _ _ h

theorem applyOp_objectiveEnt {Cond : Type} [Inhabited Cond] (d : ObjectiveConditionsDialog Cond)
    (op : ConditionOp) : (d.applyOp op).objectiveEnt = d.objectiveEnt := by
  cases op with
  | add =>
    simp only [ObjectiveConditionsDialog.applyOp]
    split
    · rename_i d1 h
      exact addLoop_objectiveEnt d _ _ _ h
    · rfl
  | del index => rfl

theorem applyOps_objectiveEnt {Cond : Type} [Inhabited Cond] (ops : List ConditionOp) :
    ∀ d : ObjectiveConditionsDialog Cond, (d.applyOps ops).objectiveEnt = d.objectiveEnt := by
  induction ops with
  | nil => intro d; rfl
  | cons op rest ih =>
    intro d
    simp only [ObjectiveConditionsDialog.applyOps, List.foldl_cons] at ih ⊢
    rw [ih (d.applyOp op), applyOp_objectiveEnt]

/-- C8: the dialog edits a working copy. For every sequence of add and delete operations on the
dialog opened on an entity, the conditions of the entity are untouched while editing and after
`_onCancel`, and after `_onOK` they are the working set of the dialog. -/
theorem conditions_saved_only_by_onOK {Cond : Type} [Inhabited Cond] (ent : ObjectiveEntity Cond)
    (ops : List ConditionOp) :
    (((ObjectiveConditionsDialog.opened ent).applyOps ops).objectiveEnt.getObjectiveConditions
        = ent.getObjectiveConditions) ∧
    (((ObjectiveConditionsDialog.opened ent).applyOps ops)._onCancel.objectiveEnt
        |>.getObjectiveConditions) = ent.getObjectiveConditions ∧
    (((ObjectiveConditionsDialog.opened ent).applyOps ops)._onOK.objectiveEnt
        |>.getObjectiveConditions)
      = ((ObjectiveConditionsDialog.opened ent).applyOps ops).objConditions := by
  have h := applyOps_objectiveEnt ops (ObjectiveConditionsDialog.opened ent)
  refine ⟨?_, ?_, ?_⟩
  · rw [h]; rfl
  · show (((ObjectiveConditionsDialog.opened ent).applyOps ops).objectiveEnt
      |>.getObjectiveConditions) = _
    rw [h]; rfl
  · rfl

/-- The working copy does change under editing: on an entity with the conditions 1 and 3, adding
twice fills the free indices 2 and 4, and deleting 1 removes the first; after `_onCancel` the
entity still has the conditions 1 and 3, after `_onOK` it has 2, 3 and 4. -/
theorem conditions_edit_example :
    ((ObjectiveConditionsDialog.opened ({ objConditions := [(1, 10), (3, 30)] } :
        ObjectiveEntity Nat)).applyOps [.add, .add, .del 1]).objConditions
      = [(2, 0), (3, 30), (4, 0)] ∧
    ((ObjectiveConditionsDialog.opened ({ objConditions := [(1, 10), (3, 30)] } :
        ObjectiveEntity Nat)).applyOps [.add, .add, .del 1])._onCancel.objectiveEnt.objConditions
      = [(1, 10), (3, 30)] ∧
    ((ObjectiveConditionsDialog.opened ({ objConditions := [(1, 10), (3, 30)] } :
        ObjectiveEntity Nat)).applyOps [.add, .add, .del 1])._onOK.objectiveEnt.objConditions
      = [(2, 0), (3, 30), (4, 0)] := by
  decide

/-! ### ModelSelector.cpp -/

theorem callbackSelChanged_selection (s : ModelSelector) (row : Option TreeStoreRow) :
    (s.callbackSelChanged row).selection = row := by
  unfold ModelSelector.callbackSelChanged ModelSelector.updateInfoTable
  simp only
  split <;> rfl

/-- A run that is confirmed returns the full name of the row selected when OK was pressed: after
any selection changes, the value returned on OK is the full name of the last row selected (of the
row selected before, if there was no change; the empty string, if no row is selected). -/
theorem gtkMain_ok (later : List DialogEvent) : ∀ (rows : List (Option TreeStoreRow))
    (t : ModelSelector),
    ∃ t1, ModelSelector.gtkMain t (rows.map DialogEvent.selectionChanged ++ .okClicked :: later)
        = some t1 ∧
      t1.lastModel = (match (rows.getLast?).getD t.selection with
                      | some row => row.fullName
                      | none => "") := by
  intro rows
  induction rows with
  | nil =>
    intro t
    refine ⟨t.callbackOK, rfl, ?_⟩
    simp [ModelSelector.callbackOK, ModelSelector.getSelectedFullName]
  | cons r rest ih =>
    intro t
    rw [List.map_cons, List.cons_append, ModelSelector.gtkMain]
    obtain ⟨t1, h1, h2⟩ := ih (t.callbackSelChanged r)
    refine ⟨t1, h1, ?_⟩
    rw [h2, callbackSelChanged_selection]
    cases rest with
    | nil => simp
    | cons r2 rest2 =>
      have hne : (r2 :: rest2) ≠ [] := List.cons_ne_nil _ _
      rw [List.getLast?_cons_cons, List.getLast?_eq_getLast _ hne]
      rfl

/-- C9 (the code at the failing input): the first run selects the chair model and is confirmed with
OK, and returns its full name; the second run of the same static dialog is dismissed by closing
the window, and returns that model again instead of the empty string, because `callbackHide` does
not reset `_lastModel` as `callbackCancel` does. -/
theorem chooseModel_close_returns_stale_model :
    (ModelSelector.new.chooseModel [.selectionChanged (some chairRow), .okClicked]).map Prod.fst
      = some "models/darkmod/props/chair1.lwo" ∧
    ((ModelSelector.new.chooseModel [.selectionChanged (some chairRow), .okClicked]).bind
        fun run1 => (run1.2.chooseModel [.deleteEvent]).map Prod.fst)
      = some "models/darkmod/props/chair1.lwo" ∧
    ((ModelSelector.new.chooseModel [.selectionChanged (some chairRow), .okClicked]).bind
        fun run1 => (run1.2.chooseModel [.cancelClicked]).map Prod.fst)
      = some "" := by
  decide

theorem slashPosOf_ne_npos (dirPath : String) : slashPosOf dirPath ≠ npos := by
  have h : slashPosOf dirPath < UINT_RANGE := Nat.mod_lt _ (by decide)
  unfold UINT_RANGE at h
  unfold npos
  omega

/-- While the directory cache is empty no call of `addRecursive` returns, whatever the path and
however many nested calls are allowed: the test `slashPos != std::string::npos` always succeeds,
so every call makes another one. -/
theorem addRecursive_empty_cache_never_returns (skins : String → List String) :
    ∀ (depth : Nat) (st : ModelFileFunctor) (dirPath : String), st.dirIterMap = [] →
      st.addRecursive skins depth dirPath = none := by
  intro depth
  induction depth with
  | zero => intro st dirPath _; rfl
  | succ n ih =>
    intro st dirPath hst
    simp only [ModelFileFunctor.addRecursive, hst, findIter]
    rw [if_pos (slashPosOf_ne_npos dirPath), ih st _ hst]

/-- A file whose name ends in neither ".lwo" nor ".ase" (compared case-insensitively) leaves the
tree store and the directory cache unchanged: the call returns with the functor as it was. -/
theorem call_ignores_other_files (skins : String → List String) (depth : Nat)
    (st : ModelFileFunctor) (file : String)
    (h1 : iends_with file ".lwo" = false) (h2 : iends_with file ".ase" = false) :
    st.call skins depth file = some st := by
  simp [ModelFileFunctor.call, LWO_EXTENSION, ASE_EXTENSION, h1, h2]

/-- On the freshly constructed functor, the call for a file whose name ends in ".lwo" or ".ase",
in any letter case, never returns. -/
theorem call_fresh_model_never_returns (skins : String → List String) (depth : Nat)
    (file : String) (h : iends_with file ".lwo" = true ∨ iends_with file ".ase" = true) :
    ModelFileFunctor.new.call skins depth file = none := by
  have hc : (!iends_with file LWO_EXTENSION && !iends_with file ASE_EXTENSION) = false := by
    rcases h with h | h <;> simp [LWO_EXTENSION, ASE_EXTENSION, h]
  unfold ModelFileFunctor.call
  rw [hc, addRecursive_empty_cache_never_returns skins depth _ file rfl]
  simp

/-- C10 (the code at the failing input): on the functor freshly constructed over the new tree
store, the calls for "chair.lwo" and for "props/CHAIR.LWO" do not return, however many nested
calls of `addRecursive` are allowed, so the files are never added to the tree. For the path
"props" without a slash, `slashPos` is 4294967295, which is not `npos`, and the parent path
`substr(0, slashPos)` is "props" again: `addRecursive` calls itself on the same path without
end. The call for "props/readme.txt" returns and changes nothing. -/
theorem call_model_file_never_returns :
    ∀ depth : Nat,
      ModelFileFunctor.new.call noSkins depth "chair.lwo" = none ∧
      ModelFileFunctor.new.call noSkins depth "props/CHAIR.LWO" = none ∧
      slashPosOf "props" = 4294967295 ∧
      slashPosOf "props" ≠ npos ∧
      substr "props" 0 (slashPosOf "props") = "props" ∧
      ModelFileFunctor.new.call noSkins depth "props/readme.txt" = some ModelFileFunctor.new := by
  intro depth
  refine ⟨?_, ?_, by decide, by decide, by decide, ?_⟩
  · exact call_fresh_model_never_returns noSkins depth _ (Or.inl (by decide))
  · exact call_fresh_model_never_returns noSkins depth _ (Or.inl (by decide))
  · exact call_ignores_other_files noSkins depth _ _ (by decide) (by decide)

/-! ### Doom3EntityClass.h -/

theorem toNat_tolower (c : Char) :
    (tolower c).toNat = if 65 ≤ c.toNat ∧ c.toNat ≤ 90 then c.toNat + 32 else c.toNat := by
  by_cases h : 65 ≤ c.toNat ∧ c.toNat ≤ 90
  · rw [if_pos h]
    have hc : c = Char.ofNat c.toNat := (Char.ofNat_toNat c).symm
    generalize c.toNat = n at h hc
    subst hc
    obtain ⟨h1, h2⟩ := h
    interval_cases n <;> rfl
  · rw [if_neg h]
    have h2 : ¬ (c.toNat ≥ 65 ∧ c.toNat ≤ 90) := h
    simp only [tolower, Char.toLower, h2, if_false]

theorem char_eq_of_toNat_eq (a b : Char) (h : a.toNat = b.toNat) : a = b := by
  rw [← Char.ofNat_toNat a, ← Char.ofNat_toNat b, h]

theorem tolower_eq_of_sameLetter (a b : Char) (h : sameLetter a b = true) :
    tolower a = tolower b := by
  apply char_eq_of_toNat_eq
  rw [toNat_tolower, toNat_tolower]
  simp only [sameLetter, Bool.or_eq_true, Bool.and_eq_true, decide_eq_true_eq, beq_iff_eq] at h
  rcases h with (h | h) | h
  · subst h; rfl
  · obtain ⟨⟨h1, h2⟩, h3⟩ := h
    split_ifs <;> omega
  · obtain ⟨⟨h1, h2⟩, h3⟩ := h
    split_ifs <;> omega

theorem nul_of_sameLetter (a b : Char) (h : sameLetter a b = true) :
    (a.toNat != 0) = (b.toNat != 0) := by
  simp only [sameLetter, Bool.or_eq_true, Bool.and_eq_true, decide_eq_true_eq, beq_iff_eq] at h
  rcases h with (h | h) | h
  · subst h; rfl
  · obtain ⟨⟨h1, h2⟩, h3⟩ := h
    have ha : (a.toNat != 0) = true := bne_iff_ne.mpr (by omega)
    have hb : (b.toNat != 0) = true := bne_iff_ne.mpr (by omega)
    rw [ha, hb]
  · obtain ⟨⟨h1, h2⟩, h3⟩ := h
    have ha : (a.toNat != 0) = true := bne_iff_ne.mpr (by omega)
    have hb : (b.toNat != 0) = true := bne_iff_ne.mpr (by omega)
    rw [ha, hb]

theorem foldedCodes_c_str_of_sameLetters : ∀ (l1 l2 : List Char), sameLetters l1 l2 = true →
    foldedCodes (l1.takeWhile (fun c => c.toNat != 0))
      = foldedCodes (l2.takeWhile (fun c => c.toNat != 0)) := by
  intro l1
  induction l1 with
  | nil =>
    intro l2 h
    cases l2 with
    | nil => rfl
    | cons b bs => simp [sameLetters] at h
  | cons a as ih =>
    intro l2 h
    cases l2 with
    | nil => simp [sameLetters] at h
    | cons b bs =>
      simp only [sameLetters, Bool.and_eq_true] at h
      obtain ⟨h1, h2⟩ := h
      have hn := nul_of_sameLetter a b h1
      have ht := tolower_eq_of_sameLetter a b h1
      have hr := ih bs h2
      simp only [List.takeWhile_cons, ← hn]
      cases hz : (a.toNat != 0) with
      | true =>
        simp only [if_true, foldedCodes, List.map_cons, ht] at hr ⊢
        rw [hr]
      | false => simp [foldedCodes]

theorem toNat_tolower_pos (c : Char) (h : c.toNat ≠ 0) : 0 < (tolower c).toNat := by
  rw [toNat_tolower]
  split_ifs <;> omega

theorem c_str_no_nul (s : String) : ∀ c ∈ c_str s, c.toNat ≠ 0 := by
  intro c hc
  have := List.mem_takeWhile_imp hc
  simpa using this

theorem lex_lt_head_of_ne {x y : Nat} {xs ys : List Nat}
    (h : List.Lex (· < ·) (x :: xs) (y :: ys)) (hne : x ≠ y) : x < y := by
  cases h with
  | cons _ => exact absurd rfl hne
  | rel hlt => exact hlt

theorem string_compare_nocase_neg_iff : ∀ (a b : List Char), (∀ c ∈ b, c.toNat ≠ 0) →
    (string_compare_nocase a b < 0 ↔ List.Lex (· < ·) (foldedCodes a) (foldedCodes b)) := by
  intro a
  induction a with
  | nil =>
    intro b hb
    cases b with
    | nil => simp [string_compare_nocase, foldedCodes]
    | cons y ys =>
      have hy := toNat_tolower_pos y (hb y (List.mem_cons_self _ _))
      simp only [string_compare_nocase, foldedCodes, List.map_nil, List.map_cons]
      constructor
      · intro _; exact List.Lex.nil
      · intro _; omega
  | cons x xs ih =>
    intro b hb
    cases b with
    | nil =>
      simp only [string_compare_nocase, foldedCodes, List.map_nil, List.map_cons]
      constructor
      · intro h; omega
      · intro h; cases h
    | cons y ys =>
      have hys : ∀ c ∈ ys, c.toNat ≠ 0 := fun c hc => hb c (List.mem_cons_of_mem _ hc)
      simp only [string_compare_nocase, foldedCodes, List.map_cons]
      by_cases hxy : tolower x = tolower y
      · rw [if_pos hxy, hxy, List.Lex.cons_iff]
        exact ih ys hys
      · rw [if_neg hxy]
        have hne : (tolower x).toNat ≠ (tolower y).toNat :=
          fun h => hxy (char_eq_of_toNat_eq _ _ h)
        constructor
        · intro h
          exact List.Lex.rel (by omega)
        · intro h
          have := lex_lt_head_of_ne h hne
          omega

theorem stringCompareFunctor_iff (s t : String) :
    StringCompareFunctor s t = true ↔
      List.Lex (· < ·) (foldedCodes (c_str s)) (foldedCodes (c_str t)) := by
  simp only [StringCompareFunctor, decide_eq_true_eq]
  exact string_compare_nocase_neg_iff _ _ (c_str_no_nul t)

theorem keysEquivalent_iff (s t : String) :
    keysEquivalent s t = true ↔ foldedCodes (c_str s) = foldedCodes (c_str t) := by
  simp only [keysEquivalent, Bool.and_eq_true, Bool.not_eq_true', ← Bool.not_eq_true,
    stringCompareFunctor_iff]
  constructor
  · rintro ⟨h1, h2⟩
    rcases trichotomous_of (List.Lex ((· < ·) : Nat → Nat → Prop)) (foldedCodes (c_str s))
      (foldedCodes (c_str t)) with h | h | h
    · exact absurd h h1
    · exact h
    · exact absurd h h2
  · intro h
    rw [h]
    exact ⟨irrefl_of (List.Lex ((· < ·) : Nat → Nat → Prop)) _,
      irrefl_of (List.Lex ((· < ·) : Nat → Nat → Prop)) _⟩

theorem stringCompareFunctor_congr (a b : String)
    (h : foldedCodes (c_str a) = foldedCodes (c_str b)) (e : String) :
    StringCompareFunctor e a = StringCompareFunctor e b ∧
      StringCompareFunctor a e = StringCompareFunctor b e := by
  constructor
  · rw [Bool.eq_iff_iff, stringCompareFunctor_iff, stringCompareFunctor_iff, h]
  · rw [Bool.eq_iff_iff, stringCompareFunctor_iff, stringCompareFunctor_iff, h]

/-- C11: `StringCompareFunctor` is a strict weak ordering on strings (irreflexive, transitive,
and with a transitive equivalence of keys that compare neither way), two keys that differ only
in letter case are equivalent under it, and they find the same entry of the attribute map. -/
theorem stringCompareFunctor_strict_weak_ordering :
    (∀ a : String, StringCompareFunctor a a = false) ∧
    (∀ a b c : String, StringCompareFunctor a b = true → StringCompareFunctor b c = true →
      StringCompareFunctor a c = true) ∧
    (∀ a b c : String, keysEquivalent a b = true → keysEquivalent b c = true →
      keysEquivalent a c = true) ∧
    (∀ a b : String, differOnlyInCase a b = true →
      StringCompareFunctor a b = false ∧ StringCompareFunctor b a = false) ∧
    (∀ (Attr : Type) (attributes : List (String × Attr)) (a b : String),
      differOnlyInCase a b = true →
        entityAttributeMapFind attributes a = entityAttributeMapFind attributes b) := by
  have hcase : ∀ a b : String, differOnlyInCase a b = true →
      foldedCodes (c_str a) = foldedCodes (c_str b) :=
    fun a b h => foldedCodes_c_str_of_sameLetters a.data b.data h
  refine ⟨?_, ?_, ?_, ?_, ?_⟩
  · intro a
    rw [← Bool.not_eq_true, stringCompareFunctor_iff]
    exact irrefl_of (List.Lex ((· < ·) : Nat → Nat → Prop)) _
  · intro a b c hab hbc
    rw [stringCompareFunctor_iff] at hab hbc ⊢
    exact trans_of (List.Lex ((· < ·) : Nat → Nat → Prop)) hab hbc
  · intro a b c hab hbc
    rw [keysEquivalent_iff] at hab hbc ⊢
    exact hab.trans hbc
  · intro a b h
    have he := (keysEquivalent_iff a b).mpr (hcase a b h)
    simpa [keysEquivalent] using he
  · intro Attr attributes a b h
    have hc := stringCompareFunctor_congr a b (hcase a b h)
    unfold entityAttributeMapFind
    have hf : (fun e : String × Attr => !StringCompareFunctor e.1 a)
        = (fun e : String × Attr => !StringCompareFunctor e.1 b) := by
      funext e
      rw [(hc e.1).1]
    rw [hf]
    cases attributes.find? (fun e : String × Attr => !StringCompareFunctor e.1 b) with
    | none => rfl
    | some e => simp only [(hc e.1).2]

/-- The comparison on concrete keys: "Editor_Usage" and "editor_usage" compare neither way and
find the same entry of an attribute map; "apple" is less than "Banana", and not the other way
round. -/
theorem stringCompareFunctor_example :
    StringCompareFunctor "Editor_Usage" "editor_usage" = false ∧
    StringCompareFunctor "editor_usage" "Editor_Usage" = false ∧
    differOnlyInCase "Editor_Usage" "editor_usage" = true ∧
    StringCompareFunctor "apple" "Banana" = true ∧
    StringCompareFunctor "Banana" "apple" = false ∧
    entityAttributeMapFind [("classname", 1), ("Editor_usage", 2), ("spawnclass", 3)]
        "EDITOR_USAGE" = some ("Editor_usage", 2) ∧
    entityAttributeMapFind [("classname", 1), ("Editor_usage", 2), ("spawnclass", 3)]
        "editor_usage" = some ("Editor_usage", 2) := by
  decide

end DarkRadiant
